import Mathlib

/-!
Shallow embedding of the sgr playback engine (src/player.hpp), with `double`
modelled as `ℚ`.  The tempo mapper, the beat-to-time walk, the piano-roll
scheduler and the mixer are transcribed from the source; the descriptor
interfaces (pitch / volume / instrument / timing segment), which the engine
only consumes, are modelled as function-valued records.
-/

namespace Sgr

/-- The `timing::time` cursor: seconds, delta-seconds, beats, delta-beats. -/
structure Time where
  t : ℚ
  dt : ℚ
  beat : ℚ
  dbeat : ℚ
deriving DecidableEq

/-- Modelled from the spec: the two-argument `timing::time(t, beat)`
constructor used for period bounds (declared in player_timing.hpp, which is
not part of src/); the spec's Period carries only `(t, beat)` per endpoint,
so the delta fields are zero. -/
def Time.make (t beat : ℚ) : Time := ⟨t, 0, beat, 0⟩

/-- The `timing::period` window: the absolute time/beat window of an instruction.
The C++ field `end` is called `stop` here (`end` is reserved in Lean). -/
structure Period where
  start : Time
  stop : Time
deriving DecidableEq

/-- A stereo volume, one factor per channel. -/
structure StereoVolume where
  left : ℚ
  right : ℚ
deriving DecidableEq

/-- One stereo output frame. -/
structure Sample where
  left : ℚ
  right : ℚ
deriving DecidableEq

instance : Add Sample := ⟨fun a b => ⟨a.left + b.left, a.right + b.right⟩⟩

/-- A `notation::timing::timing` descriptor (one tempo regime), modelled by
its consumed interface: a beat count, a total time, and the two conversion
maps. -/
structure TimingSegment where
  duration : ℚ
  full_time : ℚ
  beat_to_time : ℚ → ℚ
  time_to_beat : ℚ → ℚ

/-- Errors raised by the engine.  `emptyTimings` stands for the
`timings.front()` call on an empty queue (undefined behaviour in C++,
modelled as a failure). -/
inductive Err where
  | endOfSong (reason : String)
  | invalidBeat (beat_val : ℚ) (reason : String)
  | emptyTimings
deriving DecidableEq

/-- The tempo mapper's state: the segment queue and the two cursors. -/
structure Tempo where
  timings : List TimingSegment
  now : Time
  global : Time

/-- Transcribes `tempo::tempo()`. -/
def Tempo.init : Tempo := ⟨[], ⟨0, 0, 0, 0⟩, ⟨0, 0, 0, 0⟩⟩

/-- Transcribes `tempo::add_timing`. -/
def Tempo.add_timing (tp : Tempo) (ts : TimingSegment) : Tempo :=
  { tp with timings := tp.timings ++ [ts] }

/-- Transcribes `tempo::advance(dt)`.  On failure the error carries the mutated state the
C++ object is left in when the exception propagates (resp. at the point of
the undefined `front()` call). -/
def Tempo.advance (tp : Tempo) (dt : ℚ) : Except (Err × Tempo) Tempo :=
  let old := tp.now
  let global1 : Time := { tp.global with t := tp.global.t + dt, dt := dt }
  let now1 : Time := { tp.now with t := tp.now.t + dt, dt := dt }
  match tp.timings with
  | [] => .error (.emptyTimings, { tp with now := now1, global := global1 })
  | t :: rest =>
    if t.full_time ≤ now1.t then
      -- finished with this timing sequence: switch to the next one
      let rest_of_t := t.full_time - old.t
      let rest_of_b := t.duration - old.beat
      let now2 : Time := { now1 with t := dt - rest_of_t }
      let oldBeat := -rest_of_b
      match rest with
      | [] => .error (.endOfSong "Ran out of timing specs!",
                      { timings := [], now := now2, global := global1 })
      | t2 :: rest2 =>
        let nowBeat := t2.time_to_beat now2.t
        let ndbeat := nowBeat - oldBeat
        .ok { timings := t2 :: rest2,
              now := { now2 with beat := nowBeat, dbeat := ndbeat },
              global := { global1 with beat := global1.beat + ndbeat, dbeat := ndbeat } }
    else
      let nowBeat := t.time_to_beat now1.t
      let ndbeat := nowBeat - old.beat
      .ok { timings := t :: rest,
            now := { now1 with beat := nowBeat, dbeat := ndbeat },
            global := { global1 with beat := global1.beat + ndbeat, dbeat := ndbeat } }

/-- The loop of `tempo::beat_to_time`: walk the queue front-to-back, with `t`
the accumulated seconds and `beat` the remaining (segment-local) beats. -/
def walkBeat (t beat : ℚ) : List TimingSegment → Except Err ℚ
  | [] => .error (.invalidBeat beat "Beat past end of song.")
  | l :: ls =>
    if beat ≤ l.duration then
      .ok (t + l.beat_to_time beat)
    else
      walkBeat (t + l.full_time) (beat - l.duration) ls

/-- Transcribes `tempo::beat_to_time(beat)`. -/
def Tempo.beat_to_time (tp : Tempo) (beat : ℚ) : Except Err ℚ :=
  if beat < tp.global.beat then
    .error (.invalidBeat beat "Beat in the past.")
  else
    walkBeat tp.global.t (beat - (tp.global.beat - tp.now.beat)) tp.timings

/-- State-passing transcription of `tempo::beat_to_time`: the method is not
`const` in the source, so we record explicitly the state the object is left
in (the body only reads members and mutates the locals `t` and `beat`). -/
def Tempo.beat_to_time_run (tp : Tempo) (beat : ℚ) : Except Err ℚ × Tempo :=
  if beat < tp.global.beat then
    (.error (.invalidBeat beat "Beat in the past."), tp)
  else
    (walkBeat tp.global.t (beat - (tp.global.beat - tp.now.beat)) tp.timings, tp)

/-- Transcribes `tempo::get()`. -/
def Tempo.get (tp : Tempo) : Time := tp.global

/-- The beat-relative window of a note: `notation::duration { start, duration }`. -/
structure NoteDuration where
  start : ℚ
  duration : ℚ
deriving DecidableEq

/-- A score note after factory resolution of its descriptors: the engine only
evaluates `get_pitch`, `get_volume`, `get_sample`, so the three descriptors
are modelled directly by those evaluation maps. -/
structure Note where
  pitch : Period → Time → ℚ
  instrument : Period → Time → StereoVolume → ℚ → Sample
  volume : Period → Time → StereoVolume
  duration : NoteDuration

/-- An activated note, `player::instruction`: resolved descriptors plus the absolute window. -/
structure Instruction where
  pitch : Period → Time → ℚ
  instrument : Period → Time → StereoVolume → ℚ → Sample
  volume : Period → Time → StereoVolume
  bounds : Period

/-- The `instruction(note, start_t, end_t)` constructor. -/
def Instruction.make (n : Note) (start_t end_t : ℚ) : Instruction :=
  { pitch := n.pitch
    instrument := n.instrument
    volume := n.volume
    bounds := ⟨Time.make start_t n.duration.start,
               Time.make end_t (n.duration.start + n.duration.duration)⟩ }

/-- The comparator `ptrcmp` orders the priority queue so that its top is the instruction of
least `bounds.start.beat`; we model the heap as a list kept sorted by
ascending start beat, whose head is the top. -/
def rollPush (roll : List Instruction) (i : Instruction) : List Instruction :=
  List.orderedInsert (fun a b => a.bounds.start.beat ≤ b.bounds.start.beat) i roll

/-- The activation step of `player::advance`: if the heap is nonempty and its
top is due (`top.bounds.start.beat ≤ beat`), pop it.  Returns the remaining
heap and the (at most one) promoted instruction. -/
def promoteOne (roll : List Instruction) (beat : ℚ) :
    List Instruction × List Instruction :=
  match roll with
  | [] => ([], [])
  | top :: rest =>
    if top.bounds.start.beat ≤ beat then (rest, [top])
    else (top :: rest, [])

/-- The retirement loop of `player::advance`: erase every active instruction
with `bounds.end.beat < beat`. -/
def retire (active : List Instruction) (beat : ℚ) : List Instruction :=
  active.filter fun p => !decide (p.bounds.stop.beat < beat)

/-- One iteration of the mixing loop: accumulate the note's sample into `s`
and `max(vol.right, vol.left)` into `normalize`. -/
def mixStep (t : Time) (acc : Sample × ℚ) (p : Instruction) : Sample × ℚ :=
  let vol := p.volume p.bounds t
  let pitch := p.pitch p.bounds t
  (acc.1 + p.instrument p.bounds t vol pitch, acc.2 + max vol.right vol.left)

/-- The mixing stage of `player::advance`: sum the active notes, then divide
by `max(normalize, 1.0)`. -/
def mix (active : List Instruction) (t : Time) : Sample :=
  let acc := active.foldl (mixStep t) (⟨0, 0⟩, 0)
  let normalize := max acc.2 1
  ⟨acc.1.left / normalize, acc.1.right / normalize⟩

/-- The `player` class state: tempo, pending heap, active list, last sample. -/
structure Player where
  now : Tempo
  roll : List Instruction
  active : List Instruction
  sound_ : Sample

namespace Player

/-- The note-materialization loop of the `player` constructor: for each note
in order, query `beat_to_time` at its start and end beats and push the
resulting instruction. -/
def makeRollStep (tp : Tempo) (roll : List Instruction) (n : Note) :
    Except Err (List Instruction) := do
  let start_t ← tp.beat_to_time n.duration.start
  let end_t ← tp.beat_to_time (n.duration.start + n.duration.duration)
  pure (rollPush roll (Instruction.make n start_t end_t))

def makeRoll (tp : Tempo) (notes : List Note) : Except Err (List Instruction) :=
  notes.foldlM (makeRollStep tp) []

/-- The note loop with the tempo state threaded through
`Tempo.beat_to_time_run`, exactly as the C++ constructor calls the
(non-`const`) method on its member object; `roll` is the heap built so far. -/
def makeRollRunAux (tp : Tempo) (roll : List Instruction) :
    List Note → Except Err (List Instruction) × Tempo
  | [] => (.ok roll, tp)
  | n :: ns =>
    match tp.beat_to_time_run n.duration.start with
    | (.error e, tp1) => (.error e, tp1)
    | (.ok start_t, tp1) =>
      match tp1.beat_to_time_run (n.duration.start + n.duration.duration) with
      | (.error e, tp2) => (.error e, tp2)
      | (.ok end_t, tp2) =>
        makeRollRunAux tp2 (rollPush roll (Instruction.make n start_t end_t)) ns

/-- The note-materialization loop in state-passing form, from an empty heap. -/
def makeRollRun (tp : Tempo) (notes : List Note) :
    Except Err (List Instruction) × Tempo :=
  makeRollRunAux tp [] notes

/-- Transcribes `player::player(song)`: enqueue the timings, then materialize the notes. -/
def make (timings : List TimingSegment) (notes : List Note) :
    Except Err Player :=
  let tp := timings.foldl Tempo.add_timing Tempo.init
  match makeRoll tp notes with
  | .error e => .error e
  | .ok roll => .ok { now := tp, roll := roll, active := [], sound_ := ⟨0, 0⟩ }

/-- Transcribes `player::advance(dt)`: advance the tempo, promote at most one due
instruction, retire expired ones, mix the sound.  On failure the error
carries the mutated player state. -/
def advance (pl : Player) (dt : ℚ) : Except (Err × Player) Player :=
  match pl.now.advance dt with
  | .error (e, tp1) => .error (e, { pl with now := tp1 })
  | .ok tp =>
    let t := tp.get
    let pr := promoteOne pl.roll t.beat
    let active1 := retire (pl.active ++ pr.2) t.beat
    .ok { now := tp, roll := pr.1, active := active1, sound_ := mix active1 t }

/-- Transcribes `player::sound()`. -/
def sound (pl : Player) : Sample := pl.sound_

end Player

/-- Iterate `player::advance` with a fixed `dt`, propagating failure. -/
def iterAdvance (pl : Player) (dt : ℚ) : Nat → Except (Err × Player) Player
  | 0 => .ok pl
  | n + 1 =>
    match iterAdvance pl dt n with
    | .ok p => p.advance dt
    | .error e => .error e

/-! ### Derived observations used to state the claims -/

/-- Whether the `beat_to_time` walk runs off the end of the queue. -/
def walkExhausts (beat : ℚ) : List TimingSegment → Bool
  | [] => true
  | l :: ls => if beat ≤ l.duration then false else walkExhausts (beat - l.duration) ls

/-- The value of the loop variable `beat` when the walk runs off the end of
the queue (the value the C++ attaches to the past-end error). -/
def walkRest (beat : ℚ) : List TimingSegment → ℚ
  | [] => beat
  | l :: ls => if beat ≤ l.duration then beat else walkRest (beat - l.duration) ls

/-- The error component of a `beat_to_time` outcome, if any. -/
def errOf : Except Err ℚ → Option Err
  | .error e => some e
  | .ok _ => none

/-- The success component of a `tempo::advance` outcome, if any. -/
def advOk : Except (Err × Tempo) Tempo → Option Tempo
  | .ok tp => some tp
  | .error _ => none

/-- A well-behaved segment for beat-to-time queries: nonnegative beat count,
`beat_to_time` monotone nondecreasing on `[0, duration]` with exact boundary
values `beat_to_time 0 = 0` and `beat_to_time duration = full_time`. -/
def segGood (l : TimingSegment) : Prop :=
  0 ≤ l.duration ∧ l.beat_to_time 0 = 0 ∧ l.beat_to_time l.duration = l.full_time ∧
    ∀ x y, 0 ≤ x → x ≤ y → y ≤ l.duration → l.beat_to_time x ≤ l.beat_to_time y

/-- A well-behaved segment for time-to-beat evaluation: `time_to_beat`
strictly monotone on `[0, full_time]` with exact boundary values. -/
def segTimeGood (l : TimingSegment) : Prop :=
  l.time_to_beat 0 = 0 ∧ l.time_to_beat l.full_time = l.duration ∧
    ∀ x y, 0 ≤ x → x < y → y ≤ l.full_time → l.time_to_beat x < l.time_to_beat y

/-- Predicate: `advance` fails on this state with this `dt`. -/
def advanceFails (tp : Tempo) (dt : ℚ) : Prop :=
  ∀ tp', tp.advance dt ≠ .ok tp'

/-- The state a `tempo::advance` call leaves the object in, success or not
(on failure, the state the C++ exception leaves behind). -/
def Tempo.advanceRun (tp : Tempo) (dt : ℚ) : Tempo :=
  match tp.advance dt with
  | .ok tp' => tp'
  | .error (_, tp') => tp'

/-- Every call in the sequence of `advance` attempts fails. -/
def allFail : Tempo → List ℚ → Prop
  | _, [] => True
  | tp, dt :: rest => advanceFails tp dt ∧ allFail (tp.advanceRun dt) rest

/-- The per-note premise of the normalization bound: each channel of the
sample the instrument returns for this tick is bounded by the larger channel
of the volume evaluated on this tick. -/
def channelBound (p : Instruction) (t : Time) : Prop :=
  |(p.instrument p.bounds t (p.volume p.bounds t) (p.pitch p.bounds t)).left| ≤
      max (p.volume p.bounds t).left (p.volume p.bounds t).right ∧
    |(p.instrument p.bounds t (p.volume p.bounds t) (p.pitch p.bounds t)).right| ≤
      max (p.volume p.bounds t).left (p.volume p.bounds t).right

/-! ### Concrete instances for the end-to-end scenarios -/

/-- Modelled from the spec: a constant-tempo TimingSegment covering `dur`
beats in `full` seconds (the concrete timing descriptors live in the
descriptor libraries, outside src/); both maps are linear. -/
def constSeg (dur full : ℚ) : TimingSegment :=
  ⟨dur, full, fun b => b * full / dur, fun t => t * dur / full⟩

/-- Segment A of the scenarios: 4 beats in 2 seconds (120 BPM). -/
def segA : TimingSegment := constSeg 4 2

/-- Segment B of the tempo-change scenario: 4 beats in 1 second. -/
def segB : TimingSegment := constSeg 4 1

/-- The empty-song player: one 4-beat/2-second segment, zero notes. -/
def pEmpty : Player :=
  ⟨⟨[segA], ⟨0, 0, 0, 0⟩, ⟨0, 0, 0, 0⟩⟩, [], [], ⟨0, 0⟩⟩

/-- A freshly constructed tempo holding segments A then B. -/
def tpAB : Tempo := ⟨[segA, segB], ⟨0, 0, 0, 0⟩, ⟨0, 0, 0, 0⟩⟩

/-- A freshly constructed tempo holding segment A only. -/
def tpA : Tempo := ⟨[segA], ⟨0, 0, 0, 0⟩, ⟨0, 0, 0, 0⟩⟩

/-- Does the `k`-th iterate succeed with stored sample `(0, 0)`? -/
def okSilent (pl : Player) (dt : ℚ) (k : Nat) : Bool :=
  match iterAdvance pl dt k with
  | .ok p => decide (p.sound_ = ⟨0, 0⟩)
  | .error _ => false

/-- Does the outcome fail with `end_of_song`? -/
def isEndOfSongErr : Except (Err × Player) Player → Bool
  | .error (.endOfSong _, _) => true
  | _ => false

/-- The state a `player::advance` call leaves the object in, success or not. -/
def Player.advanceRun (pl : Player) (dt : ℚ) : Player :=
  match pl.advance dt with
  | .ok p => p
  | .error (_, p) => p

/-- A tempo one tick before the end of its single segment (cursor at 1.9 s /
3.8 beats of segment A). -/
def tpEnd : Tempo :=
  ⟨[segA], ⟨19/10, 1/10, 19/5, 1/5⟩, ⟨19/10, 1/10, 19/5, 1/5⟩⟩

/-- The state `tpEnd` is left in by the failing `advance(0.1)`: queue empty,
segment-local time rewound to the carry-over 0, global time at 2 s. -/
def tpDead : Tempo := ⟨[], ⟨0, 1/10, 19/5, 1/5⟩, ⟨2, 1/10, 19/5, 1/5⟩⟩

/-- A silent note spanning beats [0, 4]. -/
def noteZ : Note :=
  ⟨fun _ _ => 1, fun _ _ _ _ => ⟨0, 0⟩, fun _ _ => ⟨0, 0⟩, ⟨0, 4⟩⟩

/-- The instruction materialized from `noteZ` under segment A's tempo. -/
def instrZ : Instruction := Instruction.make noteZ 0 2

/-- A player holding `instrZ` as its only pending instruction. -/
def pOne : Player := ⟨tpA, [instrZ], [], ⟨0, 0⟩⟩

/-- The cursor state of the empty-song player after a whole number of
0.1-second ticks: both cursors at `(t, 0.1, b, 0.2)`. -/
def pAt (t b : ℚ) : Player :=
  ⟨⟨[segA], ⟨t, 1/10, b, 1/5⟩, ⟨t, 1/10, b, 1/5⟩⟩, [], [], ⟨0, 0⟩⟩

/-- The state the failing twentieth tick leaves the empty-song player in. -/
def pDead : Player :=
  ⟨⟨[], ⟨0, 1/10, 19/5, 1/5⟩, ⟨2, 1/10, 19/5, 1/5⟩⟩, [], [], ⟨0, 0⟩⟩

/-- The tempo state segment A's fresh tempo reaches after one 0.1 s tick. -/
def tpA1 : Tempo := ⟨[segA], ⟨1/10, 1/10, 1/5, 1/5⟩, ⟨1/10, 1/10, 1/5, 1/5⟩⟩

/-- The state `pOne` reaches after one 0.1 s tick: `instrZ` promoted. -/
def pOne1 : Player := ⟨tpA1, [], [instrZ], ⟨0, 0⟩⟩

/-! ### Helper lemmas -/

theorem errOf_walkBeat (segs : List TimingSegment) : ∀ t beat : ℚ,
    errOf (walkBeat t beat segs) =
      if walkExhausts beat segs then
        some (.invalidBeat (walkRest beat segs) "Beat past end of song.")
      else none := by
  induction segs with
  | nil => intro t beat; simp [walkBeat, walkExhausts, walkRest, errOf]
  | cons l ls ih =>
    intro t beat
    by_cases h : beat ≤ l.duration
    · simp [walkBeat, walkExhausts, walkRest, errOf, h]
    · simp [walkBeat, walkExhausts, walkRest, h, ih]

theorem beat_to_time_run_eq (tp : Tempo) (beat : ℚ) :
    tp.beat_to_time_run beat = (tp.beat_to_time beat, tp) := by
  by_cases h : beat < tp.global.beat <;>
    simp [Tempo.beat_to_time_run, Tempo.beat_to_time, h]

theorem makeRollRunAux_eq (tp : Tempo) (notes : List Note) : ∀ roll,
    Player.makeRollRunAux tp roll notes =
      (notes.foldlM (Player.makeRollStep tp) roll, tp) := by
  induction notes with
  | nil => intro roll; rfl
  | cons n ns ih =>
    intro roll
    simp only [Player.makeRollRunAux, beat_to_time_run_eq, List.foldlM]
    cases h1 : tp.beat_to_time n.duration.start with
    | error e =>
      simp only [Player.makeRollStep, h1]
      rfl
    | ok start_t =>
      cases h2 : tp.beat_to_time (n.duration.start + n.duration.duration) with
      | error e =>
        simp only [Player.makeRollStep, h1, h2]
        rfl
      | ok end_t =>
        simp only [Player.makeRollStep, h1, h2, ih]
        rfl

/-! ### Claims -/

/-- C4: on a freshly constructed tempo holding segment A (4 beats in 2 s)
then segment B (4 beats in 1 s), `beat_to_time 6` returns 2.5 s and
`beat_to_time 7` returns 2.75 s: the walk skips A, accumulating its
`full_time`, and applies B's `beat_to_time` to the remaining beats. -/
theorem C4_tempo_change_beat_to_time :
    tpAB.beat_to_time 6 = .ok (5/2) ∧ tpAB.beat_to_time 7 = .ok (11/4) := by
  constructor <;>
    norm_num [tpAB, Tempo.beat_to_time, walkBeat, segA, segB, constSeg]


/-- Unfolding lemma for `iterAdvance`. -/
theorem iterAdvance_succ (pl : Player) (dt : ℚ) (n : ℕ) :
    iterAdvance pl dt (n + 1) =
      match iterAdvance pl dt n with
      | .ok p => p.advance dt
      | .error e => .error e := rfl

/-- Evaluation of the empty-song scenario: nineteen silent ticks, then
`end_of_song` on the twentieth. -/
theorem pEmpty_run_facts :
    ((List.range 20).all fun k => okSilent pEmpty (1/10) k) = true ∧
      iterAdvance pEmpty (1/10) 20 =
        .error (.endOfSong "Ran out of timing specs!", pDead) := by
  have s1 : Player.advance (pEmpty) (1/10) = .ok (pAt (1/10) (1/5)) := by
    norm_num [Player.advance, Tempo.advance, promoteOne, retire, mix, mixStep, Tempo.get, max_def, pAt, pEmpty, segA, constSeg]
  have s2 : Player.advance (pAt (1/10) (1/5)) (1/10) = .ok (pAt (1/5) (2/5)) := by
    norm_num [Player.advance, Tempo.advance, promoteOne, retire, mix, mixStep, Tempo.get, max_def, pAt, pEmpty, segA, constSeg]
  have s3 : Player.advance (pAt (1/5) (2/5)) (1/10) = .ok (pAt (3/10) (3/5)) := by
    norm_num [Player.advance, Tempo.advance, promoteOne, retire, mix, mixStep, Tempo.get, max_def, pAt, pEmpty, segA, constSeg]
  have s4 : Player.advance (pAt (3/10) (3/5)) (1/10) = .ok (pAt (2/5) (4/5)) := by
    norm_num [Player.advance, Tempo.advance, promoteOne, retire, mix, mixStep, Tempo.get, max_def, pAt, pEmpty, segA, constSeg]
  have s5 : Player.advance (pAt (2/5) (4/5)) (1/10) = .ok (pAt (1/2) (1)) := by
    norm_num [Player.advance, Tempo.advance, promoteOne, retire, mix, mixStep, Tempo.get, max_def, pAt, pEmpty, segA, constSeg]
  have s6 : Player.advance (pAt (1/2) (1)) (1/10) = .ok (pAt (3/5) (6/5)) := by
    norm_num [Player.advance, Tempo.advance, promoteOne, retire, mix, mixStep, Tempo.get, max_def, pAt, pEmpty, segA, constSeg]
  have s7 : Player.advance (pAt (3/5) (6/5)) (1/10) = .ok (pAt (7/10) (7/5)) := by
    norm_num [Player.advance, Tempo.advance, promoteOne, retire, mix, mixStep, Tempo.get, max_def, pAt, pEmpty, segA, constSeg]
  have s8 : Player.advance (pAt (7/10) (7/5)) (1/10) = .ok (pAt (4/5) (8/5)) := by
    norm_num [Player.advance, Tempo.advance, promoteOne, retire, mix, mixStep, Tempo.get, max_def, pAt, pEmpty, segA, constSeg]
  have s9 : Player.advance (pAt (4/5) (8/5)) (1/10) = .ok (pAt (9/10) (9/5)) := by
    norm_num [Player.advance, Tempo.advance, promoteOne, retire, mix, mixStep, Tempo.get, max_def, pAt, pEmpty, segA, constSeg]
  have s10 : Player.advance (pAt (9/10) (9/5)) (1/10) = .ok (pAt (1) (2)) := by
    norm_num [Player.advance, Tempo.advance, promoteOne, retire, mix, mixStep, Tempo.get, max_def, pAt, pEmpty, segA, constSeg]
  have s11 : Player.advance (pAt (1) (2)) (1/10) = .ok (pAt (11/10) (11/5)) := by
    norm_num [Player.advance, Tempo.advance, promoteOne, retire, mix, mixStep, Tempo.get, max_def, pAt, pEmpty, segA, constSeg]
  have s12 : Player.advance (pAt (11/10) (11/5)) (1/10) = .ok (pAt (6/5) (12/5)) := by
    norm_num [Player.advance, Tempo.advance, promoteOne, retire, mix, mixStep, Tempo.get, max_def, pAt, pEmpty, segA, constSeg]
  have s13 : Player.advance (pAt (6/5) (12/5)) (1/10) = .ok (pAt (13/10) (13/5)) := by
    norm_num [Player.advance, Tempo.advance, promoteOne, retire, mix, mixStep, Tempo.get, max_def, pAt, pEmpty, segA, constSeg]
  have s14 : Player.advance (pAt (13/10) (13/5)) (1/10) = .ok (pAt (7/5) (14/5)) := by
    norm_num [Player.advance, Tempo.advance, promoteOne, retire, mix, mixStep, Tempo.get, max_def, pAt, pEmpty, segA, constSeg]
  have s15 : Player.advance (pAt (7/5) (14/5)) (1/10) = .ok (pAt (3/2) (3)) := by
    norm_num [Player.advance, Tempo.advance, promoteOne, retire, mix, mixStep, Tempo.get, max_def, pAt, pEmpty, segA, constSeg]
  have s16 : Player.advance (pAt (3/2) (3)) (1/10) = .ok (pAt (8/5) (16/5)) := by
    norm_num [Player.advance, Tempo.advance, promoteOne, retire, mix, mixStep, Tempo.get, max_def, pAt, pEmpty, segA, constSeg]
  have s17 : Player.advance (pAt (8/5) (16/5)) (1/10) = .ok (pAt (17/10) (17/5)) := by
    norm_num [Player.advance, Tempo.advance, promoteOne, retire, mix, mixStep, Tempo.get, max_def, pAt, pEmpty, segA, constSeg]
  have s18 : Player.advance (pAt (17/10) (17/5)) (1/10) = .ok (pAt (9/5) (18/5)) := by
    norm_num [Player.advance, Tempo.advance, promoteOne, retire, mix, mixStep, Tempo.get, max_def, pAt, pEmpty, segA, constSeg]
  have s19 : Player.advance (pAt (9/5) (18/5)) (1/10) = .ok (pAt (19/10) (19/5)) := by
    norm_num [Player.advance, Tempo.advance, promoteOne, retire, mix, mixStep, Tempo.get, max_def, pAt, pEmpty, segA, constSeg]
  have s20 : Player.advance (pAt (19/10) (19/5)) (1/10) =
      .error (.endOfSong "Ran out of timing specs!", pDead) := by
    norm_num [Player.advance, Tempo.advance, promoteOne, retire, mix, mixStep, Tempo.get, max_def, pAt, pEmpty, segA, constSeg, pDead]
  have h0 : iterAdvance pEmpty (1/10) 0 = .ok pEmpty := rfl
  have h1 : iterAdvance pEmpty (1/10) 1 = .ok (pAt (1/10) (1/5)) := by
    rw [show (1:ℕ) = 0 + 1 from rfl, iterAdvance_succ, h0]; exact s1
  have h2 : iterAdvance pEmpty (1/10) 2 = .ok (pAt (1/5) (2/5)) := by
    rw [show (2:ℕ) = 1 + 1 from rfl, iterAdvance_succ, h1]; exact s2
  have h3 : iterAdvance pEmpty (1/10) 3 = .ok (pAt (3/10) (3/5)) := by
    rw [show (3:ℕ) = 2 + 1 from rfl, iterAdvance_succ, h2]; exact s3
  have h4 : iterAdvance pEmpty (1/10) 4 = .ok (pAt (2/5) (4/5)) := by
    rw [show (4:ℕ) = 3 + 1 from rfl, iterAdvance_succ, h3]; exact s4
  have h5 : iterAdvance pEmpty (1/10) 5 = .ok (pAt (1/2) (1)) := by
    rw [show (5:ℕ) = 4 + 1 from rfl, iterAdvance_succ, h4]; exact s5
  have h6 : iterAdvance pEmpty (1/10) 6 = .ok (pAt (3/5) (6/5)) := by
    rw [show (6:ℕ) = 5 + 1 from rfl, iterAdvance_succ, h5]; exact s6
  have h7 : iterAdvance pEmpty (1/10) 7 = .ok (pAt (7/10) (7/5)) := by
    rw [show (7:ℕ) = 6 + 1 from rfl, iterAdvance_succ, h6]; exact s7
  have h8 : iterAdvance pEmpty (1/10) 8 = .ok (pAt (4/5) (8/5)) := by
    rw [show (8:ℕ) = 7 + 1 from rfl, iterAdvance_succ, h7]; exact s8
  have h9 : iterAdvance pEmpty (1/10) 9 = .ok (pAt (9/10) (9/5)) := by
    rw [show (9:ℕ) = 8 + 1 from rfl, iterAdvance_succ, h8]; exact s9
  have h10 : iterAdvance pEmpty (1/10) 10 = .ok (pAt (1) (2)) := by
    rw [show (10:ℕ) = 9 + 1 from rfl, iterAdvance_succ, h9]; exact s10
  have h11 : iterAdvance pEmpty (1/10) 11 = .ok (pAt (11/10) (11/5)) := by
    rw [show (11:ℕ) = 10 + 1 from rfl, iterAdvance_succ, h10]; exact s11
  have h12 : iterAdvance pEmpty (1/10) 12 = .ok (pAt (6/5) (12/5)) := by
    rw [show (12:ℕ) = 11 + 1 from rfl, iterAdvance_succ, h11]; exact s12
  have h13 : iterAdvance pEmpty (1/10) 13 = .ok (pAt (13/10) (13/5)) := by
    rw [show (13:ℕ) = 12 + 1 from rfl, iterAdvance_succ, h12]; exact s13
  have h14 : iterAdvance pEmpty (1/10) 14 = .ok (pAt (7/5) (14/5)) := by
    rw [show (14:ℕ) = 13 + 1 from rfl, iterAdvance_succ, h13]; exact s14
  have h15 : iterAdvance pEmpty (1/10) 15 = .ok (pAt (3/2) (3)) := by
    rw [show (15:ℕ) = 14 + 1 from rfl, iterAdvance_succ, h14]; exact s15
  have h16 : iterAdvance pEmpty (1/10) 16 = .ok (pAt (8/5) (16/5)) := by
    rw [show (16:ℕ) = 15 + 1 from rfl, iterAdvance_succ, h15]; exact s16
  have h17 : iterAdvance pEmpty (1/10) 17 = .ok (pAt (17/10) (17/5)) := by
    rw [show (17:ℕ) = 16 + 1 from rfl, iterAdvance_succ, h16]; exact s17
  have h18 : iterAdvance pEmpty (1/10) 18 = .ok (pAt (9/5) (18/5)) := by
    rw [show (18:ℕ) = 17 + 1 from rfl, iterAdvance_succ, h17]; exact s18
  have h19 : iterAdvance pEmpty (1/10) 19 = .ok (pAt (19/10) (19/5)) := by
    rw [show (19:ℕ) = 18 + 1 from rfl, iterAdvance_succ, h18]; exact s19
  have h20 : iterAdvance pEmpty (1/10) 20 =
      .error (.endOfSong "Ran out of timing specs!", pDead) := by
    rw [show (20:ℕ) = 19 + 1 from rfl, iterAdvance_succ, h19]; exact s20
  refine ⟨?_, h20⟩
  simp only [List.range_succ, List.range_zero, List.all_append, List.all_cons,
    List.all_nil, okSilent, h0, h1, h2, h3, h4, h5, h6, h7, h8, h9, h10, h11, h12, h13, h14, h15, h16, h17, h18, h19]
  norm_num [pAt, pEmpty]

/-- C2 counterexample: on the empty song (one 4-beat / 2-second segment,
zero notes), the twentieth `advance(0.1)` already fails: after nineteen
ticks the segment-local time is 1.9 s, and the twentieth tick brings it to
2.0 s = `full_time`, which satisfies the `full_time() <= now.t` boundary
test, pops the only segment and raises `end_of_song`. -/
theorem C2_cex_twentieth_advance_fails :
    isEndOfSongErr (iterAdvance pEmpty (1/10) 20) = true := by
  rw [pEmpty_run_facts.2]
  rfl

/-- C2 amended: nineteen successive `advance(0.1)` calls succeed on the
empty song, each leaving `sound() = (0, 0)` (the initial state included);
the twentieth fails with `end_of_song`. -/
theorem C2_amended_nineteen_silent_ticks :
    ((List.range 20).all fun k => okSilent pEmpty (1/10) k) = true ∧
      isEndOfSongErr (iterAdvance pEmpty (1/10) 20) = true := by
  refine ⟨pEmpty_run_facts.1, ?_⟩
  rw [pEmpty_run_facts.2]
  rfl

/-- C5 counterexample: on a fresh tempo with a single 4-beat segment,
`beat_to_time 5` fails past-end carrying the beat value 1 — the loop
variable after subtracting the walked segment's duration — and not the
originally requested beat 5. -/
theorem C5_cex_past_end_payload :
    tpA.beat_to_time 5 = .error (.invalidBeat 1 "Beat past end of song.") ∧
      (1 : ℚ) ≠ 5 := by
  constructor
  · norm_num [tpA, Tempo.beat_to_time, walkBeat, segA, constSeg]
  · norm_num

/-- C5 amended: `beat_to_time` fails with reason "in the past" iff the
requested beat is below `global.beat`, carrying the requested beat; it
fails with reason "past end of song" iff it is not in the past and the walk
exhausts the queue, but then it carries the walked-down segment-local beat
(the request minus `global.beat - now.beat` minus the durations of the
walked segments), not the originally requested beat. -/
theorem C5_amended_invalid_beat_characterization (tp : Tempo) (beat : ℚ) :
    errOf (tp.beat_to_time beat) =
      if beat < tp.global.beat then
        some (.invalidBeat beat "Beat in the past.")
      else if walkExhausts (beat - (tp.global.beat - tp.now.beat)) tp.timings then
        some (.invalidBeat
          (walkRest (beat - (tp.global.beat - tp.now.beat)) tp.timings)
          "Beat past end of song.")
      else none := by
  by_cases h : beat < tp.global.beat
  · simp [Tempo.beat_to_time, h, errOf]
  · simp [Tempo.beat_to_time, h, errOf_walkBeat]

/-- C10: `beat_to_time` never mutates the tempo (queue or cursors), whether
it returns a time or fails; consequently the constructor's note loop,
threaded through the stateful calls, computes exactly what independent
queries on the untouched state compute. -/
theorem C10_beat_to_time_is_pure (tp : Tempo) (beat : ℚ) (notes : List Note) :
    (tp.beat_to_time_run beat).2 = tp ∧
      Player.makeRollRun tp notes = (Player.makeRoll tp notes, tp) := by
  refine ⟨?_, ?_⟩
  · rw [beat_to_time_run_eq]
  · rw [Player.makeRollRun, makeRollRunAux_eq, Player.makeRoll]

/-- Unfolding of the `sample` componentwise addition. -/
theorem Sample.add_left (a b : Sample) : (a + b).left = a.left + b.left := rfl

/-- Unfolding of the `sample` componentwise addition (right channel). -/
theorem Sample.add_right (a b : Sample) : (a + b).right = a.right + b.right := rfl

/-- Unfolding of the `sample` addition on literals. -/
theorem Sample.add_mk (a b c d : ℚ) :
    ((⟨a, b⟩ : Sample) + ⟨c, d⟩) = ⟨a + c, b + d⟩ := rfl

/-- The mixing fold keeps each accumulated channel within the accumulated
normalization budget, and the budget never shrinks. -/
theorem mixFold_bound (t : Time) (l : List Instruction) :
    (∀ p ∈ l, channelBound p t) → ∀ (s0 : Sample) (n0 : ℚ),
      |(l.foldl (mixStep t) (s0, n0)).1.left| ≤
          |s0.left| + ((l.foldl (mixStep t) (s0, n0)).2 - n0) ∧
        |(l.foldl (mixStep t) (s0, n0)).1.right| ≤
          |s0.right| + ((l.foldl (mixStep t) (s0, n0)).2 - n0) ∧
        n0 ≤ (l.foldl (mixStep t) (s0, n0)).2 := by
  induction l with
  | nil => intro _ s0 n0; simp
  | cons p l ih =>
    intro hb s0 n0
    have hp := hb p (List.mem_cons_self p l)
    have hb2 : ∀ q ∈ l, channelBound q t := fun q hq => hb q (List.mem_cons_of_mem p hq)
    simp only [List.foldl_cons, mixStep]
    obtain ⟨ih1, ih2, ih3⟩ :=
      ih hb2 (s0 + p.instrument p.bounds t (p.volume p.bounds t) (p.pitch p.bounds t))
        (n0 + max (p.volume p.bounds t).right (p.volume p.bounds t).left)
    obtain ⟨hpl, hpr⟩ := hp
    rw [max_comm] at hpl hpr
    have habs0 : (0:ℚ) ≤ max (p.volume p.bounds t).right (p.volume p.bounds t).left :=
      le_trans (abs_nonneg _) hpl
    have htr1 : |(s0 + p.instrument p.bounds t (p.volume p.bounds t) (p.pitch p.bounds t)).left| ≤
        |s0.left| + max (p.volume p.bounds t).right (p.volume p.bounds t).left := by
      rw [Sample.add_left]
      exact le_trans (abs_add _ _) (by linarith)
    have htr2 : |(s0 + p.instrument p.bounds t (p.volume p.bounds t) (p.pitch p.bounds t)).right| ≤
        |s0.right| + max (p.volume p.bounds t).right (p.volume p.bounds t).left := by
      rw [Sample.add_right]
      exact le_trans (abs_add _ _) (by linarith)
    refine ⟨by linarith, by linarith, by linarith⟩

/-- The mixed sample is unit-bounded whenever every mixed note satisfies the
per-note channel bound. -/
theorem mix_bound (l : List Instruction) (t : Time)
    (hb : ∀ p ∈ l, channelBound p t) :
    |(mix l t).left| ≤ 1 ∧ |(mix l t).right| ≤ 1 := by
  obtain ⟨h1, h2, h3⟩ := mixFold_bound t l hb ⟨0, 0⟩ 0
  simp only [mix]
  have hpos : (0:ℚ) < max (l.foldl (mixStep t) (⟨0, 0⟩, 0)).2 1 :=
    lt_of_lt_of_le one_pos (le_max_right _ _)
  have hle : (l.foldl (mixStep t) (⟨0, 0⟩, 0)).2 ≤ max (l.foldl (mixStep t) (⟨0, 0⟩, 0)).2 1 :=
    le_max_left _ _
  constructor
  · rw [abs_div, abs_of_pos hpos, div_le_one hpos]
    simp only [show |((⟨0, 0⟩ : Sample)).left| = 0 from by simp] at h1
    linarith
  · rw [abs_div, abs_of_pos hpos, div_le_one hpos]
    simp only [show |((⟨0, 0⟩ : Sample)).right| = 0 from by simp] at h2
    linarith

/-- C1: on every successful `player::advance(dt)`, if every note in the
active list satisfies the per-note bound `|s.channel| <= max(vol.left,
vol.right)` for the volume evaluated on this tick, the stored
`current_sample` is unit-bounded in both channels, because the mixer divides
the accumulated sum by `max(sum of per-note max(vol.left, vol.right), 1)`. -/
theorem C1_normalized_sample_bounded (pl pl' : Player) (dt : ℚ)
    (hok : pl.advance dt = .ok pl')
    (hb : ∀ p ∈ pl'.active, channelBound p pl'.now.global) :
    |pl'.sound.left| ≤ 1 ∧ |pl'.sound.right| ≤ 1 := by
  unfold Player.advance at hok
  cases hadv : pl.now.advance dt with
  | error e => rw [hadv] at hok; cases hok
  | ok tp =>
    rw [hadv] at hok
    simp only at hok
    injection hok with hok
    subst hok
    exact mix_bound _ _ hb

/-- Evaluation of the first tick on the empty song. -/
theorem pEmpty_step : pEmpty.advance (1/10) = .ok (pAt (1/10) (1/5)) := by
  norm_num [Player.advance, Tempo.advance, promoteOne, retire, mix, mixStep,
    Tempo.get, max_def, pAt, pEmpty, segA, constSeg]

/-- Witness for C1 at the empty song's first tick (empty active list). -/
theorem C1_witness :
    |((pAt (1/10) (1/5)).sound).left| ≤ 1 ∧ |((pAt (1/10) (1/5)).sound).right| ≤ 1 :=
  C1_normalized_sample_bounded pEmpty (pAt (1/10) (1/5)) (1/10) pEmpty_step
    (fun p hp => absurd hp (List.not_mem_nil p))


/-- C3: a `tempo::advance(dt)` that reaches or passes the front segment's
`full_time` while a further segment remains sets the segment-local time to
`dt` minus the seconds that remained in the old front (`full_time - old.t`),
pops the front, and adds to `global.beat` the new segment's `time_to_beat`
of the new local time plus the beats that remained in the old segment
(`duration - old.beat`), so the beat progresses continuously. -/
theorem C3_boundary_crossing_advance (t1 t2 : TimingSegment)
    (rest : List TimingSegment) (nw gl : Time) (dt : ℚ)
    (hcross : t1.full_time ≤ nw.t + dt) :
    (advOk (Tempo.advance ⟨t1 :: t2 :: rest, nw, gl⟩ dt)).map Tempo.timings
        = some (t2 :: rest) ∧
      (advOk (Tempo.advance ⟨t1 :: t2 :: rest, nw, gl⟩ dt)).map (fun s => s.now.t)
        = some (dt - (t1.full_time - nw.t)) ∧
      (advOk (Tempo.advance ⟨t1 :: t2 :: rest, nw, gl⟩ dt)).map (fun s => s.global.beat)
        = some (gl.beat + (t2.time_to_beat (dt - (t1.full_time - nw.t))
            + (t1.duration - nw.beat))) := by
  simp only [Tempo.advance]
  rw [if_pos hcross]
  refine ⟨rfl, rfl, ?_⟩
  simp only [advOk, Option.map_some]
  exact congrArg some (by ring)

/-- Evaluation of the crossing condition for the C3 witness. -/
theorem segA_crossing : segA.full_time ≤ (19/10 : ℚ) + 1/10 := by
  norm_num [segA, constSeg]

/-- Witness for C3: the tick that crosses from segment A into segment B. -/
theorem C3_witness :
    (advOk (Tempo.advance ⟨[segA, segB], ⟨19/10, 1/10, 19/5, 1/5⟩,
          ⟨19/10, 1/10, 19/5, 1/5⟩⟩ (1/10))).map Tempo.timings = some [segB] ∧
      (advOk (Tempo.advance ⟨[segA, segB], ⟨19/10, 1/10, 19/5, 1/5⟩,
          ⟨19/10, 1/10, 19/5, 1/5⟩⟩ (1/10))).map (fun s => s.now.t)
        = some (1/10 - (segA.full_time - 19/10)) ∧
      (advOk (Tempo.advance ⟨[segA, segB], ⟨19/10, 1/10, 19/5, 1/5⟩,
          ⟨19/10, 1/10, 19/5, 1/5⟩⟩ (1/10))).map (fun s => s.global.beat)
        = some (19/5 + (segB.time_to_beat (1/10 - (segA.full_time - 19/10))
            + (segA.duration - 19/5))) :=
  C3_boundary_crossing_advance segA segB [] ⟨19/10, 1/10, 19/5, 1/5⟩
    ⟨19/10, 1/10, 19/5, 1/5⟩ (1/10) segA_crossing


/-- The walk's accumulated time is a lower bound on its result, for
well-behaved segments and nonnegative remaining beats. -/
theorem walkBeat_ge (segs : List TimingSegment) :
    ∀ t r v : ℚ, (∀ l ∈ segs, segGood l) → 0 ≤ r →
      walkBeat t r segs = .ok v → t ≤ v := by
  induction segs with
  | nil =>
    intro t r v _ _ h
    simp [walkBeat] at h
  | cons l ls ih =>
    intro t r v hg hr h
    obtain ⟨hd0, hz, hf, hmono⟩ := hg l (List.mem_cons_self l ls)
    simp only [walkBeat] at h
    by_cases hd : r ≤ l.duration
    · rw [if_pos hd] at h
      injection h with h
      have h0 : 0 ≤ l.beat_to_time r := by
        rw [← hz]
        exact hmono 0 r le_rfl hr hd
      linarith
    · rw [if_neg hd] at h
      have hfull : 0 ≤ l.full_time := by
        have h2 := hmono 0 l.duration le_rfl hd0 le_rfl
        rw [hz, hf] at h2
        exact h2
      have h3 := ih (t + l.full_time) (r - l.duration) v
        (fun q hq => hg q (List.mem_cons_of_mem l hq))
        (by linarith [not_le.mp hd]) h
      linarith

/-- The walk is monotone in the remaining beats, for well-behaved segments. -/
theorem walkBeat_mono (segs : List TimingSegment) :
    ∀ t r1 r2 v1 v2 : ℚ, (∀ l ∈ segs, segGood l) → 0 ≤ r1 → r1 ≤ r2 →
      walkBeat t r1 segs = .ok v1 → walkBeat t r2 segs = .ok v2 → v1 ≤ v2 := by
  induction segs with
  | nil =>
    intro t r1 r2 v1 v2 _ _ _ h1 _
    simp [walkBeat] at h1
  | cons l ls ih =>
    intro t r1 r2 v1 v2 hg hr1 hr12 h1 h2
    obtain ⟨hd0, hz, hf, hmono⟩ := hg l (List.mem_cons_self l ls)
    have hgtail : ∀ q ∈ ls, segGood q := fun q hq => hg q (List.mem_cons_of_mem l hq)
    simp only [walkBeat] at h1 h2
    by_cases hd2 : r2 ≤ l.duration
    · have hd1 : r1 ≤ l.duration := le_trans hr12 hd2
      rw [if_pos hd1] at h1
      rw [if_pos hd2] at h2
      injection h1 with h1
      injection h2 with h2
      have h3 := hmono r1 r2 hr1 hr12 hd2
      linarith
    · rw [if_neg hd2] at h2
      by_cases hd1 : r1 ≤ l.duration
      · rw [if_pos hd1] at h1
        injection h1 with h1
        have hb1 : l.beat_to_time r1 ≤ l.full_time := by
          have h3 := hmono r1 l.duration hr1 hd1 le_rfl
          rw [hf] at h3
          exact h3
        have hge := walkBeat_ge ls (t + l.full_time) (r2 - l.duration) v2 hgtail
          (by linarith [not_le.mp hd2]) h2
        linarith
      · rw [if_neg hd1] at h1
        exact ih (t + l.full_time) (r1 - l.duration) (r2 - l.duration) v1 v2 hgtail
          (by linarith [not_le.mp hd1]) (by linarith) h1 h2

/-- C6: for a fixed tempo state (with a nonnegative segment-local beat
cursor) whose segments all have monotone `beat_to_time` on `[0, duration]`
with exact boundary values, `beat_to_time` is monotone nondecreasing on the
beats where it succeeds. -/
theorem C6_beat_to_time_monotone (tp : Tempo) (b1 b2 v1 v2 : ℚ)
    (hnb : 0 ≤ tp.now.beat)
    (hgood : ∀ l ∈ tp.timings, segGood l)
    (hb1 : tp.global.beat ≤ b1) (h12 : b1 ≤ b2)
    (e1 : tp.beat_to_time b1 = .ok v1)
    (e2 : tp.beat_to_time b2 = .ok v2) :
    v1 ≤ v2 := by
  unfold Tempo.beat_to_time at e1 e2
  rw [if_neg (not_lt.mpr hb1)] at e1
  rw [if_neg (not_lt.mpr (le_trans hb1 h12))] at e2
  exact walkBeat_mono tp.timings tp.global.t _ _ v1 v2 hgood
    (by linarith) (by linarith) e1 e2

/-- Segment A is well behaved for beat-to-time queries. -/
theorem segGood_segA : segGood segA := by
  refine ⟨by norm_num [segA, constSeg], by norm_num [segA, constSeg],
    by norm_num [segA, constSeg], ?_⟩
  intro x y hx hxy hy
  simp only [segA, constSeg]
  linarith

/-- Segment B is well behaved for beat-to-time queries. -/
theorem segGood_segB : segGood segB := by
  refine ⟨by norm_num [segB, constSeg], by norm_num [segB, constSeg],
    by norm_num [segB, constSeg], ?_⟩
  intro x y hx hxy hy
  simp only [segB, constSeg]
  linarith

/-- Both segments of the tempo-change scenario are well behaved. -/
theorem tpAB_segGood : ∀ l ∈ tpAB.timings, segGood l := by
  intro l hl
  simp only [tpAB] at hl
  rcases List.mem_cons.mp hl with h | h
  · subst h
    exact segGood_segA
  · simp only [List.mem_singleton] at h
    subst h
    exact segGood_segB

/-- Evaluation of `beat_to_time 6` on the two-segment tempo. -/
theorem tpAB_b2t_6 : tpAB.beat_to_time 6 = .ok (5/2) := by
  norm_num [tpAB, Tempo.beat_to_time, walkBeat, segA, segB, constSeg]

/-- Evaluation of `beat_to_time 7` on the two-segment tempo. -/
theorem tpAB_b2t_7 : tpAB.beat_to_time 7 = .ok (11/4) := by
  norm_num [tpAB, Tempo.beat_to_time, walkBeat, segA, segB, constSeg]

/-- Witness for C6: beats 6 and 7 across the tempo change, 2.5 s and 2.75 s. -/
theorem C6_witness : (5/2 : ℚ) ≤ 11/4 :=
  C6_beat_to_time_monotone tpAB 6 7 (5/2) (11/4) (by norm_num [tpAB])
    tpAB_segGood (by norm_num [tpAB]) (by norm_num) tpAB_b2t_6 tpAB_b2t_7


/-- C7: a successful `advance(dt)` with `dt > 0` strictly increases both
components of the global cursor, provided the front segment's cursor is in a
consistent position (`0 <= now.t <= full_time`, `now.beat = time_to_beat
now.t`), every segment's `time_to_beat` is strictly monotone with exact
boundary values, and at most one boundary is crossed. -/
theorem C7_advance_strict_increase (tp tp' : Tempo) (t1 : TimingSegment)
    (rest : List TimingSegment) (dt : ℚ)
    (htm : tp.timings = t1 :: rest)
    (hdt : 0 < dt)
    (hnt0 : 0 ≤ tp.now.t) (hntf : tp.now.t ≤ t1.full_time)
    (hcons : tp.now.beat = t1.time_to_beat tp.now.t)
    (hgood : ∀ l ∈ tp.timings, segTimeGood l)
    (hone : ∀ t2 ∈ rest.head?, dt - (t1.full_time - tp.now.t) ≤ t2.full_time)
    (hok : tp.advance dt = .ok tp') :
    tp.global.t < tp'.global.t ∧ tp.global.beat < tp'.global.beat := by
  rw [htm] at hgood
  obtain ⟨z1, f1, m1⟩ := hgood t1 (List.mem_cons_self t1 rest)
  simp only [Tempo.advance, htm] at hok
  by_cases hcross : t1.full_time ≤ tp.now.t + dt
  · rw [if_pos hcross] at hok
    cases rest with
    | nil => simp at hok
    | cons t2 rest2 =>
      obtain ⟨z2, f2, m2⟩ :=
        hgood t2 (List.mem_cons_of_mem t1 (List.mem_cons_self t2 rest2))
      have hx2 : dt - (t1.full_time - tp.now.t) ≤ t2.full_time :=
        hone t2 (by simp)
      injection hok with hok
      subst hok
      refine ⟨by show tp.global.t < tp.global.t + dt; linarith, ?_⟩
      show tp.global.beat < tp.global.beat +
        (t2.time_to_beat (dt - (t1.full_time - tp.now.t)) - -(t1.duration - tp.now.beat))
      have hx0 : 0 ≤ dt - (t1.full_time - tp.now.t) := by linarith
      have hbd : t1.time_to_beat tp.now.t ≤ t1.duration := by
        rcases lt_or_eq_of_le hntf with h | h
        · exact le_of_lt (by rw [← f1]; exact m1 tp.now.t t1.full_time hnt0 h le_rfl)
        · rw [h, f1]
      rcases eq_or_lt_of_le hx0 with hx | hx
      · have hz2 : t2.time_to_beat (dt - (t1.full_time - tp.now.t)) = 0 := by
          rw [show dt - (t1.full_time - tp.now.t) = 0 by linarith, z2]
        have hnwt : tp.now.t < t1.full_time := by linarith
        have hstrict : t1.time_to_beat tp.now.t < t1.duration := by
          rw [← f1]
          exact m1 tp.now.t t1.full_time hnt0 hnwt le_rfl
        rw [hz2]
        linarith [hcons, hstrict]
      · have hpos2 : 0 < t2.time_to_beat (dt - (t1.full_time - tp.now.t)) := by
          rw [← z2]
          exact m2 0 (dt - (t1.full_time - tp.now.t)) le_rfl hx hx2
        linarith [hcons, hbd]
  · rw [if_neg hcross] at hok
    injection hok with hok
    subst hok
    refine ⟨by show tp.global.t < tp.global.t + dt; linarith, ?_⟩
    show tp.global.beat < tp.global.beat +
      (t1.time_to_beat (tp.now.t + dt) - tp.now.beat)
    have hstep : t1.time_to_beat tp.now.t < t1.time_to_beat (tp.now.t + dt) :=
      m1 tp.now.t (tp.now.t + dt) hnt0 (by linarith) (by linarith [not_le.mp hcross])
    linarith [hcons, hstep]

/-- Segment A is well behaved for time-to-beat evaluation. -/
theorem segTimeGood_segA : segTimeGood segA := by
  refine ⟨by norm_num [segA, constSeg], by norm_num [segA, constSeg], ?_⟩
  intro x y hx hxy hy
  simp only [segA, constSeg]
  linarith

/-- Evaluation of the first tick on segment A's fresh tempo. -/
theorem tpA_step : tpA.advance (1/10) = .ok tpA1 := by
  norm_num [Tempo.advance, tpA, tpA1, segA, constSeg]

/-- Witness for C7: the first 0.1 s tick on the fresh single-segment tempo. -/
theorem C7_witness :
    tpA.global.t < tpA1.global.t ∧ tpA.global.beat < tpA1.global.beat :=
  C7_advance_strict_increase tpA tpA1 segA [] (1/10) rfl (by norm_num)
    (by norm_num [tpA]) (by norm_num [tpA, segA, constSeg])
    (by norm_num [tpA, segA, constSeg])
    (by intro l hl
        simp only [tpA] at hl
        rw [List.mem_singleton] at hl
        subst hl
        exact segTimeGood_segA)
    (by intro t2 ht2
        simp at ht2)
    tpA_step


/-- An `advance` that fails with `end_of_song` leaves the timing queue empty
(the throw happens right after the pop that emptied it). -/
theorem advance_endOfSong_empties (tp tp1 : Tempo) (dt : ℚ) (r : String)
    (h : tp.advance dt = .error (.endOfSong r, tp1)) : tp1.timings = [] := by
  cases htm : tp.timings with
  | nil => simp [Tempo.advance, htm] at h
  | cons t rest =>
    simp only [Tempo.advance, htm] at h
    by_cases hc : t.full_time ≤ tp.now.t + dt
    · rw [if_pos hc] at h
      cases rest with
      | nil =>
        injection h with h
        injection h with h1 h2
        rw [← h2]
      | cons t2 rest2 => simp at h
    · rw [if_neg hc] at h
      simp at h

/-- On an empty timing queue every `advance` fails (the C++ would call
`front()` on an empty list), and the queue stays empty. -/
theorem advance_empty_fails (tp : Tempo) (dt : ℚ) (h : tp.timings = []) :
    advanceFails tp dt ∧ (tp.advanceRun dt).timings = [] := by
  constructor
  · intro tp' hok
    simp [Tempo.advance, h] at hok
  · simp [Tempo.advanceRun, Tempo.advance, h]

/-- Once the queue is empty, every sequence of further `advance` calls fails. -/
theorem allFail_of_empty (dts : List ℚ) :
    ∀ tp : Tempo, tp.timings = [] → allFail tp dts := by
  induction dts with
  | nil => intro tp _; trivial
  | cons dt dts ih =>
    intro tp h
    exact ⟨(advance_empty_fails tp dt h).1, ih _ (advance_empty_fails tp dt h).2⟩

/-- C8: once `advance` has failed with `end_of_song`, every subsequent
`advance` call on the resulting state fails as well — `advance` never
succeeds again (subsequent calls hit the empty queue, whose `front()` access
is modelled as a failure). -/
theorem C8_end_of_song_is_terminal (tp tp1 : Tempo) (dt : ℚ) (r : String)
    (hfail : tp.advance dt = .error (.endOfSong r, tp1)) (dts : List ℚ) :
    allFail tp1 dts :=
  allFail_of_empty dts tp1 (advance_endOfSong_empties tp tp1 dt r hfail)

/-- Evaluation of the failing tick at the end of segment A. -/
theorem tpEnd_fail :
    tpEnd.advance (1/10) = .error (.endOfSong "Ran out of timing specs!", tpDead) := by
  norm_num [Tempo.advance, tpEnd, tpDead, segA, constSeg]

/-- Witness for C8: after the end-of-song failure, two further calls fail. -/
theorem C8_witness : allFail tpDead [1/10, 1/5] :=
  C8_end_of_song_is_terminal tpEnd tpDead (1/10) "Ran out of timing specs!"
    tpEnd_fail [1/10, 1/5]


/-- C9: on a successful `player::advance`, at most one instruction leaves
the heap; one leaves exactly when the heap is nonempty and its top — a
minimum-start-beat element, given the heap order — is due
(`start.beat <= global.beat`); and the new active list holds exactly the old
active instructions plus the promoted one, minus those with
`end.beat < global.beat`. -/
theorem C9_promotion_and_retirement (pl pl' : Player) (dt : ℚ)
    (hsort : pl.roll.Pairwise (fun a b => a.bounds.start.beat ≤ b.bounds.start.beat))
    (hok : pl.advance dt = .ok pl') :
    (pl'.roll.length ≤ pl.roll.length ∧ pl.roll.length ≤ pl'.roll.length + 1) ∧
      (pl'.roll.length < pl.roll.length ↔
        ∃ top rest, pl.roll = top :: rest ∧
          (∀ q ∈ pl.roll, top.bounds.start.beat ≤ q.bounds.start.beat) ∧
          top.bounds.start.beat ≤ pl'.now.global.beat) ∧
      (∀ q, q ∈ pl'.active ↔
        ((q ∈ pl.active ∨ ∃ rest, pl.roll = q :: rest ∧
            q.bounds.start.beat ≤ pl'.now.global.beat) ∧
          ¬ q.bounds.stop.beat < pl'.now.global.beat)) := by
  unfold Player.advance at hok
  cases hadv : pl.now.advance dt with
  | error e => rw [hadv] at hok; cases hok
  | ok tp =>
    rw [hadv] at hok
    simp only at hok
    injection hok with hok
    subst hok
    simp only [Tempo.get]
    cases hr : pl.roll with
    | nil =>
      simp only [hr, promoteOne, retire, List.append_nil]
      refine ⟨⟨le_rfl, Nat.le_succ _⟩, ?_, ?_⟩
      · constructor
        · intro h
          exact absurd h (lt_irrefl _)
        · rintro ⟨top, rest, habs, -, -⟩
          cases habs
      · intro q
        simp [List.mem_filter, Bool.not_eq_true', decide_eq_false_iff_not]
    | cons top rest =>
      rw [hr] at hsort
      have hmin : ∀ q ∈ top :: rest, top.bounds.start.beat ≤ q.bounds.start.beat := by
        intro q hq
        rcases List.mem_cons.mp hq with h | h
        · rw [h]
        · exact (List.pairwise_cons.mp hsort).1 q h
      by_cases hp : top.bounds.start.beat ≤ tp.global.beat
      · simp only [hr, promoteOne, if_pos hp, retire]
        refine ⟨⟨by simp, by simp⟩, ?_, ?_⟩
        · constructor
          · intro _
            exact ⟨top, rest, rfl, hmin, hp⟩
          · intro _
            simp
        · intro q
          simp only [List.mem_filter, List.mem_append, List.mem_singleton,
            Bool.not_eq_true', decide_eq_false_iff_not]
          constructor
          · rintro ⟨hmem, hstop⟩
            refine ⟨?_, hstop⟩
            rcases hmem with h | h
            · exact Or.inl h
            · exact Or.inr ⟨rest, by rw [h], by rw [h]; exact hp⟩
          · rintro ⟨hmem, hstop⟩
            refine ⟨?_, hstop⟩
            rcases hmem with h | ⟨rest2, heq, -⟩
            · exact Or.inl h
            · injection heq with h1 _
              exact Or.inr h1.symm
      · simp only [hr, promoteOne, if_neg hp, retire, List.append_nil]
        refine ⟨⟨le_rfl, Nat.le_succ _⟩, ?_, ?_⟩
        · constructor
          · intro h
            exact absurd h (lt_irrefl _)
          · rintro ⟨top2, rest2, heq, -, hle⟩
            injection heq with h1 _
            exact (hp (h1 ▸ hle)).elim
        · intro q
          simp only [List.mem_filter, Bool.not_eq_true', decide_eq_false_iff_not]
          constructor
          · rintro ⟨hmem, hstop⟩
            exact ⟨Or.inl hmem, hstop⟩
          · rintro ⟨hmem, hstop⟩
            refine ⟨?_, hstop⟩
            rcases hmem with h | ⟨rest2, heq, hle⟩
            · exact h
            · injection heq with h1 _
              exact absurd (h1 ▸ hle) hp

/-- Evaluation of the first tick on the one-note player: `instrZ` promoted. -/
theorem pOne_step : pOne.advance (1/10) = .ok pOne1 := by
  norm_num [Player.advance, Tempo.advance, promoteOne, retire, mix, mixStep,
    Tempo.get, max_def, pOne, pOne1, tpA, tpA1, segA, constSeg, instrZ,
    Instruction.make, noteZ, Time.make, Sample.add_mk]

/-- Witness for C9 at the one-note player's first tick. -/
theorem C9_witness :
    (pOne1.roll.length ≤ pOne.roll.length ∧ pOne.roll.length ≤ pOne1.roll.length + 1) ∧
      (pOne1.roll.length < pOne.roll.length ↔
        ∃ top rest, pOne.roll = top :: rest ∧
          (∀ q ∈ pOne.roll, top.bounds.start.beat ≤ q.bounds.start.beat) ∧
          top.bounds.start.beat ≤ pOne1.now.global.beat) ∧
      (∀ q, q ∈ pOne1.active ↔
        ((q ∈ pOne.active ∨ ∃ rest, pOne.roll = q :: rest ∧
            q.bounds.start.beat ≤ pOne1.now.global.beat) ∧
          ¬ q.bounds.stop.beat < pOne1.now.global.beat)) :=
  C9_promotion_and_retirement pOne pOne1 (1/10) (by simp [pOne]) pOne_step

end Sgr
